import Mathlib

/-!
Verification development for the `ken` workflow coordinator.

Shallow embedding of the session orchestration engine:
* `src/session.rs` — session model, status enumeration, trigger evaluator,
  agent request/response types;
* `src/storage.rs` — the SQLite-backed store, embedded as a pure record of
  the `sessions` and `events` tables (rows kept in rowid/insertion order,
  which is the order SQLite yields for these queries);
* `src/commands/request.rs` — the agent request handler;
* `src/commands/process.rs` — the tick (wake scan + activation scan).

Modelling conventions:
* RFC 3339 timestamps are embedded as `Int` seconds (chronological order of
  the textual timestamps coincides with the numeric order);
* the one `Utc::now()` reading that a command takes at its start is passed
  in as a `now : Int` parameter; the additional `Utc::now()` stamps that
  `Event::new` / `Session::new` take microseconds later are identified with
  that same `now`;
* `Uuid::new_v4` outputs are passed in as a `freshIds : List String`
  parameter (one id per spawned child);
* printing to stdout is embedded as returned structured values;
* fallible store operations return `Except KenError _`; operations whose
  only failure mode is an engine-level fault (which we do not model) are
  total functions.
-/

namespace Ken

/-- Rust `SessionStatus` from src/session.rs. -/
inductive SessionStatus where
  | pending
  | active
  | sleeping
  | complete
  | failed
deriving DecidableEq, Repr

/-- Rust `SessionStatus::as_str` from src/session.rs. -/
def SessionStatus.as_str : SessionStatus → String
  | .pending => "pending"
  | .active => "active"
  | .sleeping => "sleeping"
  | .complete => "complete"
  | .failed => "failed"

/-- Rust `SessionStatus::from_str` from src/session.rs: unknown strings decode to
`pending`. -/
def SessionStatus.from_str (s : String) : SessionStatus :=
  if s = "pending" then .pending
  else if s = "active" then .active
  else if s = "sleeping" then .sleeping
  else if s = "complete" then .complete
  else if s = "failed" then .failed
  else .pending

/-- Rust `Session` from src/session.rs (one row of the `sessions` table).
Timestamps are embedded as `Int` seconds. -/
structure Session where
  id : String
  ken : String
  task : String
  status : SessionStatus
  parent_id : Option String
  trigger : Option String
  checkpoint : Option String
  result : Option String
  created_at : Int
  updated_at : Int
deriving DecidableEq, Repr

/-- Rust `Event` from src/session.rs (one row of the `events` table). -/
structure Event where
  ts : Int
  session_id : Option String
  event_type : String
  data : Option String
deriving DecidableEq, Repr

/-- Rust `KenError` from src/error.rs. -/
inductive KenError where
  | notInitialized
  | alreadyInitialized
  | database (msg : String)
  | json (msg : String)
  | io (msg : String)
  | sessionNotFound (id : String)
  | invalidRequest (msg : String)
deriving DecidableEq, Repr

/-- The persistent store of src/storage.rs: the `sessions` and `events`
tables, rows in rowid (= insertion) order. -/
structure DB where
  sessions : List Session
  events : List Event
deriving DecidableEq, Repr

/-- Rust `Storage::insert_session` from src/storage.rs: `INSERT INTO sessions …`.
Fails (UNIQUE constraint on the primary key) iff the id already exists. -/
def DB.insert_session (db : DB) (s : Session) : Except KenError DB :=
  if db.sessions.any (fun t => t.id = s.id) then
    .error (.database "UNIQUE constraint failed: sessions.id")
  else
    .ok { db with sessions := db.sessions ++ [s] }

/-- Rust `Storage::get_session` from src/storage.rs: `SELECT … WHERE id = ?1`;
a missing row is mapped to `SessionNotFound`. -/
def DB.get_session (db : DB) (id : String) : Except KenError Session :=
  match db.sessions.find? (fun s => s.id = id) with
  | some s => .ok s
  | none => .error (.sessionNotFound id)

/-- Rust `Storage::get_sessions_by_status` from src/storage.rs:
`SELECT … WHERE status = ?1` — the SQL carries no ORDER BY clause, so rows
come back in rowid (insertion) order. -/
def DB.get_sessions_by_status (db : DB) (status : SessionStatus) : List Session :=
  db.sessions.filter (fun s => s.status = status)

/-- Rust `Storage::get_all_sessions` from src/storage.rs:
`SELECT … ORDER BY created_at`. -/
def DB.get_all_sessions (db : DB) : List Session :=
  db.sessions.mergeSort (fun a b => a.created_at ≤ b.created_at)

/-- Rust `Storage::get_children` from src/storage.rs: `SELECT … WHERE parent_id = ?1`. -/
def DB.get_children (db : DB) (parent_id : String) : List Session :=
  db.sessions.filter (fun s => s.parent_id = some parent_id)

/-- Rust `Storage::update_session_status` from src/storage.rs:
`UPDATE sessions SET status = ?1, updated_at = ?2 WHERE id = ?3`.
The statement succeeds whether or not any row matches (zero affected rows is
not an error), so the embedding is a total function. -/
def DB.update_session_status (db : DB) (id : String) (status : SessionStatus)
    (updated_at : Int) : DB :=
  { db with sessions := db.sessions.map (fun s =>
      if s.id = id then { s with status := status, updated_at := updated_at } else s) }

/-- Rust `Storage::complete_session` from src/storage.rs:
`UPDATE sessions SET status = 'complete', result = ?1, updated_at = ?2 WHERE id = ?3`.
Total for the same reason as `update_session_status`. -/
def DB.complete_session (db : DB) (id : String) (result : String)
    (updated_at : Int) : DB :=
  { db with sessions := db.sessions.map (fun s =>
      if s.id = id then
        { s with status := .complete, result := some result, updated_at := updated_at }
      else s) }

/-- Rust `Storage::sleep_session` from src/storage.rs:
`UPDATE sessions SET status = 'sleeping', trigger = ?1, checkpoint = ?2,
updated_at = ?3 WHERE id = ?4`. Total for the same reason as
`update_session_status`. -/
def DB.sleep_session (db : DB) (id : String) (trigger : String)
    (checkpoint : String) (updated_at : Int) : DB :=
  { db with sessions := db.sessions.map (fun s =>
      if s.id = id then
        { s with status := .sleeping, trigger := some trigger,
                 checkpoint := some checkpoint, updated_at := updated_at }
      else s) }

/-- Rust `Storage::insert_event` from src/storage.rs: append-only insert into the
`events` table. -/
def DB.insert_event (db : DB) (e : Event) : DB :=
  { db with events := db.events ++ [e] }

/-- Modelled from the spec: `Storage::try_update_session_status` is called
from src/commands/process.rs but its definition is not among the source
files; spec §4.1 specifies it as a compare-and-swap on the status column
that returns true iff the row's current status equals `expected` and was
updated. -/
def DB.try_update_session_status (db : DB) (id : String)
    (expected new : SessionStatus) (now : Int) : Bool × DB :=
  match db.sessions.find? (fun s => s.id = id) with
  | some s =>
      if s.status = expected then (true, db.update_session_status id new now)
      else (false, db)
  | none => (false, db)

/-- Rust `Trigger` from src/session.rs. -/
inductive Trigger where
  | all_complete (ids : List String)
  | any_complete (ids : List String)
  | timeout_seconds (n : Nat)
deriving DecidableEq, Repr

/-- Rust `p.is_prefix(cs)` over character lists (helper for the string functions
below). -/
def isPre : List Char → List Char → Bool
  | [], _ => true
  | _ :: _, [] => false
  | p :: ps, c :: cs => p = c && isPre ps cs

/-- Substring containment over character lists (helper). -/
def containsSub (pat : List Char) : List Char → Bool
  | [] => isPre pat []
  | c :: cs => isPre pat (c :: cs) || containsSub pat cs

/-- Rust `str::contains` (Rust): `s` contains `pat` as a substring. -/
def strContains (s pat : String) : Bool :=
  containsSub pat.data s.data

/-- Left-to-right non-overlapping replacement over character lists, with
fuel (helper for `strReplace`). -/
def replaceAux (pat repl : List Char) : Nat → List Char → List Char
  | _, [] => []
  | 0, cs => cs
  | fuel + 1, c :: cs =>
    if pat ≠ [] && isPre pat (c :: cs) then
      repl ++ replaceAux pat repl fuel ((c :: cs).drop pat.length)
    else
      c :: replaceAux pat repl fuel cs

/-- Rust `str::replace` (Rust): replace every non-overlapping occurrence of `pat`
in `s` by `repl`, scanning left to right. -/
def strReplace (s pat repl : String) : String :=
  String.mk (replaceAux pat.data repl.data s.data.length s.data)

/-- JSON whitespace. -/
def isJsonWs (c : Char) : Bool :=
  c = ' ' || c = '\n' || c = '\t' || c = '\r'

/-- Skip JSON whitespace. -/
def skipWs (cs : List Char) : List Char :=
  cs.dropWhile isJsonWs

/-- Parse a JSON string literal (no escape sequences: the triggers the
program exchanges never contain them). Helper for `parseTrigger`. -/
def parseJsonString (cs : List Char) : Option (String × List Char) :=
  match cs with
  | '\"' :: rest =>
    let content := rest.takeWhile (fun c => ¬ (c = '\"' || c = '\\'))
    match rest.drop content.length with
    | '\"' :: rest2 => some (String.mk content, rest2)
    | _ => none
  | _ => none

/-- Parse a comma-separated list of JSON strings up to the closing bracket,
with fuel. Helper for `parseTrigger`. -/
def parseIdsAux : Nat → List Char → Option (List String × List Char)
  | 0, _ => none
  | fuel + 1, cs =>
    match parseJsonString (skipWs cs) with
    | none => none
    | some (id, rest) =>
      match skipWs rest with
      | ',' :: rest2 =>
        match parseIdsAux fuel rest2 with
        | some (ids, rest3) => some (id :: ids, rest3)
        | none => none
      | ']' :: rest2 => some ([id], rest2)
      | _ => none

/-- Parse a JSON array of strings. Helper for `parseTrigger`. -/
def parseIds (cs : List Char) : Option (List String × List Char) :=
  match skipWs cs with
  | '[' :: rest =>
    match skipWs rest with
    | ']' :: rest2 => some ([], rest2)
    | _ => parseIdsAux rest.length rest
  | _ => none

/-- Parse a non-negative JSON integer. Helper for `parseTrigger`. -/
def parseNat (cs : List Char) : Option (Nat × List Char) :=
  let digits := cs.takeWhile (fun c => c.isDigit)
  if digits = [] then none
  else some (digits.foldl (fun n c => n * 10 + (c.toNat - 48)) 0, cs.drop digits.length)

/-- The serde_json grammar of `Trigger` (src/session.rs): a single-key
object in one of the three snake_case shapes. The embedding implements the
grammar restricted to the payloads that can actually occur (string lists
without escape sequences, non-negative integers); anything else is a parse
error, as under serde. -/
def parseTrigger (json : String) : Except String Trigger :=
  match skipWs json.data with
  | '\x7b' :: r0 =>
    match parseJsonString (skipWs r0) with
    | none => .error "expected variant key"
    | some (key, r1) =>
      match skipWs r1 with
      | ':' :: r2 =>
        let payload : Except String (Trigger × List Char) :=
          if key = "all_complete" then
            match parseIds r2 with
            | some (ids, r3) => .ok (.all_complete ids, r3)
            | none => .error "invalid list payload"
          else if key = "any_complete" then
            match parseIds r2 with
            | some (ids, r3) => .ok (.any_complete ids, r3)
            | none => .error "invalid list payload"
          else if key = "timeout_seconds" then
            match parseNat (skipWs r2) with
            | some (n, r3) => .ok (.timeout_seconds n, r3)
            | none => .error "invalid integer payload"
          else .error "unknown variant"
        match payload with
        | .error e => .error e
        | .ok (t, r3) =>
          match skipWs r3 with
          | '\x7d' :: r4 => if skipWs r4 = [] then .ok t else .error "trailing characters"
          | _ => .error "expected end of object"
      | _ => .error "expected colon"
  | _ => .error "expected object"

/-- Rust `Trigger::from_json` from src/session.rs: a string that still contains
the `__CHILDREN__` placeholder is special-cased to an empty `all_complete`
trigger ("a template that will be filled in later"); everything else goes
through the serde JSON grammar. -/
def Trigger.from_json (json : String) : Except String Trigger :=
  if strContains json "__CHILDREN__" then .ok (.all_complete [])
  else parseTrigger json

/-- Rust `matches!(get_status(id), Some(SessionStatus::Complete))` from
src/session.rs. -/
def isCompleteOpt : Option SessionStatus → Bool
  | some .complete => true
  | _ => false

/-- Rust `Trigger::is_satisfied` from src/session.rs. The `timeout_seconds`
branch of this function is an unimplemented TODO returning `false`. -/
def Trigger.is_satisfied (t : Trigger) (get_status : String → Option SessionStatus) : Bool :=
  match t with
  | .all_complete ids => ids.all (fun id => isCompleteOpt (get_status id))
  | .any_complete ids => ids.any (fun id => isCompleteOpt (get_status id))
  | .timeout_seconds _ => false

/-- Modelled from the spec: `Trigger::is_satisfied_with_time` is called from
src/commands/process.rs but its definition is not among the source files.
Spec §4.3: evaluation is a pure function of
`(trigger, now, reference_time, status_lookup)`; `all_complete` /
`any_complete` are as in `Trigger::is_satisfied`; `timeout_seconds n` is
satisfied iff `now − reference_time ≥ n` seconds, the reference time being
the sleeping session's `updated_at` (no reference time: not satisfied). -/
def Trigger.is_satisfied_with_time (t : Trigger)
    (get_status : String → Option SessionStatus)
    (reference_time : Option Int) (now : Int) : Bool :=
  match t with
  | .all_complete ids => ids.all (fun id => isCompleteOpt (get_status id))
  | .any_complete ids => ids.any (fun id => isCompleteOpt (get_status id))
  | .timeout_seconds n =>
    match reference_time with
    | some ref => decide ((n : Int) ≤ now - ref)
    | none => false

/-- Rust `ChildSpec` from src/session.rs. -/
structure ChildSpec where
  ken : String
  task : String
deriving DecidableEq, Repr

/-- Rust `AgentRequest` from src/session.rs. The `trigger` field arrives as a
`serde_json::Value`; the handler only ever serializes it back to a string,
so the embedding carries the serialized JSON text directly. -/
inductive AgentRequest where
  | complete (session_id result : String)
  | spawn_and_sleep (session_id : String) (children : List ChildSpec)
      (trigger checkpoint : String)
  | sleep (session_id : String) (trigger checkpoint : String)
deriving DecidableEq, Repr

/-- The `session_id` field common to every request shape. -/
def AgentRequest.sessionId : AgentRequest → String
  | .complete sid _ => sid
  | .spawn_and_sleep sid _ _ _ => sid
  | .sleep sid _ _ => sid

/-- Rust `AgentResponse` from src/session.rs. The only `data` payload the handler
ever emits is the `\x7b"children": [...]\x7d` object, embedded as the list of
child ids. -/
structure AgentResponse where
  ok : Bool
  data : Option (List String)
  error : Option String
deriving DecidableEq, Repr

/-- Rust `AgentResponse::success` from src/session.rs. -/
def AgentResponse.success (data : Option (List String)) : AgentResponse :=
  { ok := true, data := data, error := none }

/-- Rust `AgentResponse::error` from src/session.rs. -/
def AgentResponse.mkError (msg : String) : AgentResponse :=
  { ok := false, data := none, error := some msg }

/-- Rust `serde_json::to_string(&child_ids)`: compact JSON array of strings. -/
def encodeStringList (ids : List String) : String :=
  "[" ++ String.intercalate "," (ids.map (fun id => "\"" ++ id ++ "\"")) ++ "]"

/-- Rust `resolve_trigger` from src/commands/request.rs: textual replacement of
the quoted `"__CHILDREN__"` token in the serialized trigger by the JSON
array of the freshly minted child ids. -/
def resolve_trigger (trigger : String) (child_ids : List String) : String :=
  if strContains trigger "\"__CHILDREN__\"" then
    strReplace trigger "\"__CHILDREN__\"" (encodeStringList child_ids)
  else trigger

/-- Rust `Session::new(&spec.ken, &spec.task, Some(session_id))` as used in the
spawn_and_sleep branch of src/commands/request.rs, with the generated UUID
supplied explicitly. -/
def mkChild (parent : String) (now : Int) (p : ChildSpec × String) : Session :=
  { id := p.2, ken := p.1.ken, task := p.1.task, status := .pending,
    parent_id := some parent, trigger := none, checkpoint := none,
    result := none, created_at := now, updated_at := now }

/-- The child-insertion loop inside `Storage::spawn_and_sleep`
(src/storage.rs): insert each child in order, stopping at the first
failure. -/
def insertAll (db : DB) : List Session → Except KenError DB
  | [] => .ok db
  | c :: rest =>
    match db.insert_session c with
    | .ok db1 => insertAll db1 rest
    | .error e => .error e

/-- Rust `Storage::spawn_and_sleep` from src/storage.rs: inside one transaction,
insert every child, put the parent to sleep, log a `children_spawned` event
carrying the child-id list; commit on success, rollback (returning the
original store) on failure. -/
def DB.spawn_and_sleep (db : DB) (parent_id : String) (children : List Session)
    (trigger checkpoint : String) (updated_at : Int) :
    Except KenError (List String) × DB :=
  match insertAll db children with
  | .ok db1 =>
    let child_ids := children.map (fun c => c.id)
    let db2 := db1.sleep_session parent_id trigger checkpoint updated_at
    let db3 := db2.insert_event
      { ts := updated_at, session_id := some parent_id,
        event_type := "children_spawned", data := some (encodeStringList child_ids) }
    (.ok child_ids, db3)
  | .error e => (.error e, db)

/-- Rust `handle_request_with_storage` from src/commands/request.rs. `freshIds`
supplies the UUIDs minted by `Session::new` for spawned children. -/
def handle_request_with_storage (db : DB) (request : AgentRequest)
    (freshIds : List String) (now : Int) : Except KenError (AgentResponse × DB) :=
  match request with
  | .complete session_id result =>
    match db.get_session session_id with
    | .error e => .error e
    | .ok session =>
      if session.status ≠ .active then
        .ok (.mkError ("Session " ++ session_id ++ " is not active (status: "
              ++ session.status.as_str ++ ")"), db)
      else
        let db1 := db.complete_session session_id result now
        let db2 := db1.insert_event
          { ts := now, session_id := some session_id,
            event_type := "session_completed", data := some result }
        .ok (.success none, db2)
  | .spawn_and_sleep session_id children trigger checkpoint =>
    match db.get_session session_id with
    | .error e => .error e
    | .ok session =>
      if session.status ≠ .active then
        .ok (.mkError ("Session " ++ session_id ++ " is not active (status: "
              ++ session.status.as_str ++ ")"), db)
      else
        let child_sessions := (children.zip freshIds).map (mkChild session_id now)
        let child_ids := child_sessions.map (fun c => c.id)
        let trigger_str := resolve_trigger trigger child_ids
        match db.spawn_and_sleep session_id child_sessions trigger_str checkpoint now with
        | (.ok spawned_ids, db1) => .ok (.success (some spawned_ids), db1)
        | (.error e, _) => .error e
  | .sleep session_id trigger checkpoint =>
    match db.get_session session_id with
    | .error e => .error e
    | .ok session =>
      if session.status ≠ .active then
        .ok (.mkError ("Session " ++ session_id ++ " is not active (status: "
              ++ session.status.as_str ++ ")"), db)
      else
        let db1 := db.sleep_session session_id trigger checkpoint now
        let db2 := db1.insert_event
          { ts := now, session_id := some session_id,
            event_type := "session_sleeping", data := some trigger }
        .ok (.success none, db2)

/-- The `request` command end to end: `commands::request::run` prints the
response envelope and returns `Ok` (exit 0), while any propagated error is
printed by `main` (src/main.rs) and the process exits 1. The result pairs
(exit code, response printed to stdout if any) with the resulting store. -/
def requestCommand (db : DB) (request : AgentRequest) (freshIds : List String)
    (now : Int) : (Nat × Option AgentResponse) × DB :=
  match handle_request_with_storage db request freshIds now with
  | .ok (response, db1) => ((0, some response), db1)
  | .error _ => ((1, none), db)

/-- What one tick prints to stdout as its JSON contract:
`\x7b"action":"spawn","session":\x7b…\x7d\x7d` with the activated session's
fields, or `\x7b"action":"none"\x7d`. -/
inductive TickAction where
  | spawn (id ken task : String) (checkpoint : Option String)
  | idle
deriving DecidableEq, Repr

/-- The status lookup closure passed to the trigger evaluator in
src/commands/process.rs: `|id| storage.get_session(id).ok().map(|s| s.status)`. -/
def statusLookup (db : DB) : String → Option SessionStatus :=
  fun id =>
    match db.get_session id with
    | .ok s => some s.status
    | .error _ => none

/-- One iteration of the wake scan in `run_with_storage`
(src/commands/process.rs): parse the sleeper's trigger; on a parse error log
`trigger_parse_error` and leave the session alone; otherwise evaluate
against the live store with the session's `updated_at` as reference time
and, if satisfied, compare-and-swap sleeping→pending, logging
`trigger_satisfied` on success. -/
def wakeStep (now : Int) (db : DB) (session : Session) : DB :=
  match session.trigger with
  | none => db
  | some trigger_json =>
    match Trigger.from_json trigger_json with
    | .ok trigger =>
      if trigger.is_satisfied_with_time (statusLookup db) (some session.updated_at) now then
        let r := db.try_update_session_status session.id .sleeping .pending now
        if r.1 then
          r.2.insert_event
            { ts := now, session_id := some session.id,
              event_type := "trigger_satisfied", data := session.trigger }
        else r.2
      else db
    | .error e =>
      db.insert_event
        { ts := now, session_id := some session.id,
          event_type := "trigger_parse_error",
          data := some ("Failed to parse trigger '" ++ trigger_json ++ "': " ++ e) }

/-- The wake scan of `run_with_storage` (src/commands/process.rs): the list
of sleepers is read once up front, then each is processed against the
evolving store. -/
def wakeScan (db : DB) (now : Int) : DB :=
  (db.get_sessions_by_status .sleeping).foldl (wakeStep now) db

/-- The activation scan of `run_with_storage` (src/commands/process.rs):
try to CAS each pending session to active; the first success is logged as
`session_activated` and reported as the spawn action; if none succeeds the
action is `\x7b"action":"none"\x7d`. -/
def activateLoop (now : Int) (db : DB) : List Session → TickAction × DB
  | [] => (.idle, db)
  | session :: rest =>
    let r := db.try_update_session_status session.id .pending .active now
    if r.1 then
      (.spawn session.id session.ken session.task session.checkpoint,
       r.2.insert_event
         { ts := now, session_id := some session.id,
           event_type := "session_activated", data := none })
    else activateLoop now r.2 rest

/-- Rust `run_with_storage` from src/commands/process.rs: the tick. Performs the
wake scan, then activates at most one pending session. -/
def run_with_storage (db : DB) (now : Int) : TickAction × DB :=
  let db1 := wakeScan db now
  activateLoop now db1 (db1.get_sessions_by_status .pending)

/-- Status of the (first) row with a given id, `true` iff it is `active`.
Observable used to count activations performed by a tick. -/
def activeById (l : List Session) (id : String) : Bool :=
  match l.find? (fun s => s.id = id) with
  | some s => decide (s.status = SessionStatus.active)
  | none => false

/-- Number of rows that are `active` in `db'` while their id was not active
in `db`: the sessions a tick transitioned into `active`. -/
def newlyActiveCount (db db' : DB) : Nat :=
  (db'.sessions.filter
    (fun s => decide (s.status = SessionStatus.active) && ! activeById db.sessions s.id)).length

/-- Row-wise relation between a store's session table before and after some
wake-scan steps: ids are preserved in place and each row's status is either
untouched or has become `pending`. -/
def WakeRel (l l' : List Session) : Prop :=
  List.Forall₂ (fun t t' => t'.id = t.id ∧ (t'.status = t.status ∨ t'.status = .pending)) l l'

/-- A sleeping session awaiting `\x7b"timeout_seconds":0\x7d`, as produced by
scenario 5 of the spec (sleep with checkpoint "t" at time 5). -/
def sTimeout : Session :=
  { id := "S", ken := "k", task := "t", status := .sleeping, parent_id := none,
    trigger := some "\x7b\"timeout_seconds\":0\x7d", checkpoint := some "t",
    result := none, created_at := 0, updated_at := 5 }

/-- Store holding only `sTimeout`. -/
def dbTimeout : DB := { sessions := [sTimeout], events := [] }

/-- A trigger string still carrying the `__CHILDREN__` placeholder. -/
def childrenTrigStr : String := "\x7b\"all_complete\":\"__CHILDREN__\"\x7d"

/-- A sleeping session whose persisted trigger still carries the
`__CHILDREN__` placeholder. -/
def sChildren : Session :=
  { id := "P", ken := "k", task := "t", status := .sleeping, parent_id := none,
    trigger := some childrenTrigStr, checkpoint := some "cp",
    result := none, created_at := 0, updated_at := 3 }

/-- Store holding only `sChildren`. -/
def dbChildren : DB := { sessions := [sChildren], events := [] }

/-- A pending session, for exercising the non-active request path. -/
def sPend : Session :=
  { id := "W", ken := "kw", task := "tw", status := .pending, parent_id := none,
    trigger := none, checkpoint := none, result := none,
    created_at := 0, updated_at := 0 }

/-- Store holding only `sPend`. -/
def dbPend : DB := { sessions := [sPend], events := [] }

/-- An active parent session, for exercising `spawn_and_sleep`. -/
def sParent : Session :=
  { id := "p", ken := "kp", task := "tp", status := .active, parent_id := none,
    trigger := none, checkpoint := none, result := none,
    created_at := 0, updated_at := 1 }

/-- Store holding only `sParent`. -/
def dbParent : DB := { sessions := [sParent], events := [] }

/-- The empty store. -/
def dbEmpty : DB := { sessions := [], events := [] }

/-- A pending session inserted first but created later (`created_at = 2`). -/
def sLate : Session :=
  { id := "A", ken := "ka", task := "ta", status := .pending, parent_id := none,
    trigger := none, checkpoint := none, result := none,
    created_at := 2, updated_at := 2 }

/-- A pending session inserted second but created earlier (`created_at = 1`). -/
def sEarly : Session :=
  { id := "B", ken := "kb", task := "tb", status := .pending, parent_id := none,
    trigger := none, checkpoint := none, result := none,
    created_at := 1, updated_at := 1 }

/-- Store where insertion order disagrees with `created_at` order. -/
def dbOrder : DB := { sessions := [sLate, sEarly], events := [] }

theorem isCompleteOpt_iff (o : Option SessionStatus) :
    isCompleteOpt o = true ↔ o = some .complete := by
  cases o with
  | none => simp [isCompleteOpt]
  | some st => cases st <;> simp [isCompleteOpt]

theorem find_id_eq_none {l : List Session} {id : String}
    (h : ∀ s ∈ l, s.id ≠ id) :
    l.find? (fun s => s.id = id) = none := by
  rw [List.find?_eq_none]
  intro x hx
  simpa using h x hx

theorem find_id_of_mem_nodup {l : List Session} {s : Session}
    (hn : (l.map (fun t => t.id)).Nodup) (hs : s ∈ l) :
    l.find? (fun t => t.id = s.id) = some s := by
  induction l with
  | nil => cases hs
  | cons a rest ih =>
    have hn' : (∀ x ∈ rest, ¬ x.id = a.id) ∧ (rest.map (fun t => t.id)).Nodup := by
      simpa using hn
    rcases List.mem_cons.mp hs with h | h
    · subst h
      simp [List.find?]
    · have hne : ¬ (a.id = s.id) := fun he => hn'.1 s h (by rw [he])
      simpa [List.find?, hne] using ih hn'.2 h

theorem get_session_of_mem_nodup {db : DB} {s : Session}
    (hn : (db.sessions.map (fun t => t.id)).Nodup) (hs : s ∈ db.sessions) :
    db.get_session s.id = .ok s := by
  simp [DB.get_session, find_id_of_mem_nodup hn hs]

theorem map_fix_eq_self {l : List Session} {f : Session → Session}
    (h : ∀ s ∈ l, f s = s) : l.map f = l :=
  (List.map_congr_left h).trans (List.map_id l)

/-- Claim C9: evaluating an `all_complete` trigger with an empty id list is
vacuously satisfied, while an `any_complete` trigger with an empty id list
is never satisfied, whatever the status lookup. -/
theorem empty_trigger_lists (lookup : String → Option SessionStatus) :
    (Trigger.all_complete []).is_satisfied lookup = true ∧
    (Trigger.any_complete []).is_satisfied lookup = false :=
  ⟨rfl, rfl⟩

/-- Claim C7: trigger evaluation is a pure function of the descriptor and
the status lookup — `all_complete ids` is satisfied iff every referenced id
looks up to status `complete`, `any_complete ids` iff at least one does, and
ids absent from the lookup (`none`) count as not-complete; the timed
evaluator used by the tick agrees with `is_satisfied` on these variants for
every `now` and reference time, so evaluation reads no other state. -/
theorem trigger_evaluator_all_any (lookup : String → Option SessionStatus)
    (ids : List String) :
    ((Trigger.all_complete ids).is_satisfied lookup = true ↔
      ∀ id ∈ ids, lookup id = some .complete) ∧
    ((Trigger.any_complete ids).is_satisfied lookup = true ↔
      ∃ id ∈ ids, lookup id = some .complete) ∧
    (∀ (ref : Option Int) (now : Int),
      (Trigger.all_complete ids).is_satisfied_with_time lookup ref now =
        (Trigger.all_complete ids).is_satisfied lookup ∧
      (Trigger.any_complete ids).is_satisfied_with_time lookup ref now =
        (Trigger.any_complete ids).is_satisfied lookup) := by
  refine ⟨?_, ?_, fun ref now => ⟨rfl, rfl⟩⟩
  · simp [Trigger.is_satisfied, List.all_eq_true, isCompleteOpt_iff]
  · simp [Trigger.is_satisfied, List.any_eq_true, isCompleteOpt_iff]

/-- Claim C8, counterexample: `get_sessions_by_status` carries no ORDER BY
clause, so rows come back in insertion order; in `dbOrder` the first
inserted pending row has the later `created_at`, so the result is not
ordered by `created_at` ascending. -/
theorem get_sessions_by_status_unsorted :
    dbOrder.get_sessions_by_status .pending = [sLate, sEarly] ∧
    ¬ (dbOrder.get_sessions_by_status .pending).Pairwise
        (fun a b => a.created_at ≤ b.created_at) := by
  constructor
  · rfl
  · intro h
    have he : dbOrder.get_sessions_by_status .pending = [sLate, sEarly] := rfl
    rw [he] at h
    have h2 := (List.pairwise_cons.mp h).1 sEarly (by simp)
    norm_num [sLate, sEarly] at h2

/-- Claim C8, amended: `get_sessions_by_status s` returns exactly the
sessions whose status equals `s`, in table insertion order (a sublist of the
session table); it is not sorted by `created_at`. -/
theorem get_sessions_by_status_exact (db : DB) (st : SessionStatus) :
    (∀ s, s ∈ db.get_sessions_by_status st ↔ s ∈ db.sessions ∧ s.status = st) ∧
    (db.get_sessions_by_status st).Sublist db.sessions := by
  constructor
  · intro s
    simp [DB.get_sessions_by_status, List.mem_filter]
  · exact List.filter_sublist db.sessions

/-- Claim C10: the unconditional mutators `update_session_status`,
`complete_session` and `sleep_session` are UPDATE statements whose WHERE
clause simply matches no row when the id is absent: they succeed (they are
total — no `SessionNotFound` is ever signalled, their only failure mode
being an engine fault) and leave every row unchanged. -/
theorem mutators_ignore_missing_id (db : DB) (id : String)
    (st : SessionStatus) (r tr cp : String) (now : Int)
    (h : ∀ s ∈ db.sessions, s.id ≠ id) :
    db.update_session_status id st now = db ∧
    db.complete_session id r now = db ∧
    db.sleep_session id tr cp now = db := by
  refine ⟨?_, ?_, ?_⟩ <;>
    simp only [DB.update_session_status, DB.complete_session, DB.sleep_session] <;>
    rw [map_fix_eq_self (fun s hs => by simp [h s hs])]

/-- Witness for C10 at a concrete store: a store holding only `sPend`
(id "W") is untouched by the three mutators aimed at id "zzz". -/
theorem mutators_ignore_missing_id_witness :
    (∀ s ∈ dbPend.sessions, s.id ≠ "zzz") ∧
    (dbPend.update_session_status "zzz" .active 9 = dbPend ∧
     dbPend.complete_session "zzz" "r" 9 = dbPend ∧
     dbPend.sleep_session "zzz" "tr" "cp" 9 = dbPend) :=
  ⟨by decide, mutators_ignore_missing_id dbPend "zzz" .active "r" "tr" "cp" 9 (by decide)⟩

/-- Claim C3: a `complete`, `sleep` or `spawn_and_sleep` request whose
session exists but is not `active` gets the non-fatal response
`{ok:false, error:"Session <id> is not active (status: <s>)"}` and the
store — sessions and events alike — is returned unmodified. -/
theorem request_on_non_active_session (db : DB) (req : AgentRequest)
    (s : Session) (freshIds : List String) (now : Int)
    (h1 : db.get_session req.sessionId = .ok s)
    (h2 : s.status ≠ .active) :
    handle_request_with_storage db req freshIds now =
      .ok (.mkError ("Session " ++ req.sessionId ++ " is not active (status: "
            ++ s.status.as_str ++ ")"), db) := by
  cases req with
  | complete sid result =>
    simp only [AgentRequest.sessionId] at h1
    simp [handle_request_with_storage, h1, h2, AgentRequest.sessionId]
  | spawn_and_sleep sid children trigger checkpoint =>
    simp only [AgentRequest.sessionId] at h1
    simp [handle_request_with_storage, h1, h2, AgentRequest.sessionId]
  | sleep sid trigger checkpoint =>
    simp only [AgentRequest.sessionId] at h1
    simp [handle_request_with_storage, h1, h2, AgentRequest.sessionId]

/-- Witness for C3 at a concrete store: completing the pending session "W"
answers the exact error envelope and leaves the store as it was. -/
theorem request_on_non_active_session_witness :
    dbPend.get_session (AgentRequest.complete "W" "x").sessionId = .ok sPend ∧
    sPend.status ≠ .active ∧
    handle_request_with_storage dbPend (.complete "W" "x") [] 4 =
      .ok (.mkError "Session W is not active (status: pending)", dbPend) :=
  ⟨rfl, by decide,
    request_on_non_active_session dbPend (.complete "W" "x") sPend [] 4 rfl (by decide)⟩

/-- Claim C1: a `timeout_seconds n` trigger evaluates as satisfied exactly
when `now − reference_time ≥ n` seconds, the reference time being the
sleeping session's `updated_at` (set when it went to sleep); in particular a
session sleeping on `\x7b"timeout_seconds":0\x7d` is woken by the next tick
(its trigger string parses back to `timeout_seconds 0`, elapsed ≥ 0) and
then activated within the same tick. -/
theorem timeout_trigger_spec :
    (∀ (n : Nat) (lookup : String → Option SessionStatus) (ref now : Int),
      (Trigger.timeout_seconds n).is_satisfied_with_time lookup (some ref) now = true ↔
        (n : Int) ≤ now - ref) ∧
    Trigger.from_json "\x7b\"timeout_seconds\":0\x7d" = .ok (.timeout_seconds 0) ∧
    (run_with_storage dbTimeout 5).1 = .spawn "S" "k" "t" (some "t") ∧
    statusLookup (run_with_storage dbTimeout 5).2 "S" = some .active := by
  refine ⟨fun n lookup ref now => ?_, rfl, by decide, by decide⟩
  simp [Trigger.is_satisfied_with_time]

/-- Claim C2, code evaluated at the failing input: `Trigger::from_json` on a
trigger still containing the literal `__CHILDREN__` placeholder does NOT
fail — it returns the vacuously-true `all_complete []` trigger — so the
tick, far from logging `trigger_parse_error` and leaving the sleeper
untouched, logs `trigger_satisfied`, wakes the session and activates it. -/
theorem children_placeholder_parses_and_wakes :
    Trigger.from_json childrenTrigStr = .ok (.all_complete []) ∧
    (run_with_storage dbChildren 9).1 = .spawn "P" "k" "t" (some "cp") ∧
    statusLookup (run_with_storage dbChildren 9).2 "P" = some .active ∧
    (run_with_storage dbChildren 9).2.events.filter
        (fun e => e.event_type = "trigger_parse_error") = [] ∧
    ({ ts := 9, session_id := some "P", event_type := "trigger_satisfied",
       data := some childrenTrigStr } : Event) ∈
      (run_with_storage dbChildren 9).2.events :=
  ⟨rfl, by decide, by decide, by decide, by decide⟩

/-- Claim C6, counterexample: a well-formed `complete` request naming a
session id absent from the store does NOT follow the non-fatal exit-0 path:
`get_session` signals `SessionNotFound`, the handler propagates it, and
`main` prints the error and exits 1 with no `\x7bok:false\x7d` envelope on
stdout. -/
theorem request_unknown_session_exits_one :
    requestCommand dbEmpty (.complete "missing" "x") [] 0 = ((1, none), dbEmpty) ∧
    ¬ ((requestCommand dbEmpty (.complete "missing" "x") [] 0).1.1 = 0 ∧
       ∃ resp, (requestCommand dbEmpty (.complete "missing" "x") [] 0).1.2 = some resp ∧
         resp.ok = false) :=
  ⟨rfl, fun h => absurd h.1 (by decide)⟩

/-- Claim C6, amended: a well-formed request whose session id is absent from
the store aborts the command rather than reporting a protocol error: the
handler propagates `SessionNotFound`, `main` prints it to stderr and exits
with code 1, no response envelope is emitted, and the store is left
unchanged. (Only the wrong-status case takes the non-fatal
`\x7bok:false\x7d`, exit-0 path.) -/
theorem request_unknown_session_aborts (db : DB) (req : AgentRequest)
    (freshIds : List String) (now : Int)
    (h : ∀ s ∈ db.sessions, s.id ≠ req.sessionId) :
    handle_request_with_storage db req freshIds now =
      .error (.sessionNotFound req.sessionId) ∧
    requestCommand db req freshIds now = ((1, none), db) := by
  have hg : db.get_session req.sessionId = .error (.sessionNotFound req.sessionId) := by
    simp [DB.get_session, find_id_eq_none h]
  have hh : handle_request_with_storage db req freshIds now =
      .error (.sessionNotFound req.sessionId) := by
    cases req <;> simp only [AgentRequest.sessionId] at hg ⊢ <;>
      simp [handle_request_with_storage, hg]
  exact ⟨hh, by simp [requestCommand, hh]⟩

/-- Witness for the amended C6 at a concrete store: a `sleep` request for
the absent id "missing" against the store holding only session "W". -/
theorem request_unknown_session_aborts_witness :
    (∀ s ∈ dbPend.sessions, s.id ≠ "missing") ∧
    (handle_request_with_storage dbPend (.sleep "missing" "tr" "cp") [] 2 =
       .error (.sessionNotFound "missing") ∧
     requestCommand dbPend (.sleep "missing" "tr" "cp") [] 2 = ((1, none), dbPend)) :=
  ⟨by decide, request_unknown_session_aborts dbPend (.sleep "missing" "tr" "cp") [] 2 (by decide)⟩

theorem wakeRel_refl (l : List Session) : WakeRel l l := by
  induction l with
  | nil => exact List.Forall₂.nil
  | cons a r ih => exact List.Forall₂.cons ⟨rfl, Or.inl rfl⟩ ih

theorem wakeRel_trans {l m n : List Session}
    (h1 : WakeRel l m) (h2 : WakeRel m n) : WakeRel l n := by
  induction h1 generalizing n with
  | nil => cases h2; exact .nil
  | cons hab _ ih =>
    cases h2 with
    | cons hbc h2t =>
      refine .cons ⟨hbc.1.trans hab.1, ?_⟩ (ih h2t)
      rcases hbc.2 with hc | hc
      · rcases hab.2 with hb | hb
        · exact Or.inl (hc.trans hb)
        · exact Or.inr (hc.trans hb)
      · exact Or.inr hc

theorem wakeRel_update_pending (l : List Session) (id : String) (now : Int) :
    WakeRel l (l.map (fun s =>
      if s.id = id then { s with status := .pending, updated_at := now } else s)) := by
  induction l with
  | nil => exact .nil
  | cons a r ih =>
    refine .cons ?_ ih
    by_cases h : a.id = id
    · exact ⟨by simp [h], Or.inr (by simp [h])⟩
    · exact ⟨by simp [h], Or.inl (by simp [h])⟩

theorem wakeStep_rel (now : Int) (db : DB) (s : Session) :
    WakeRel db.sessions (wakeStep now db s).sessions := by
  unfold wakeStep
  cases hT : s.trigger with
  | none => exact wakeRel_refl _
  | some tj =>
    dsimp only
    cases hP : Trigger.from_json tj with
    | error e => exact wakeRel_refl _
    | ok tr =>
      by_cases hs :
        tr.is_satisfied_with_time (statusLookup db) (some s.updated_at) now = true
      · simp only [hs, if_true]
        unfold DB.try_update_session_status
        cases hf : db.sessions.find? (fun t => t.id = s.id) with
        | none => exact wakeRel_refl _
        | some s0 =>
          by_cases hst : s0.status = SessionStatus.sleeping
          · simp only [hst, if_true]
            exact wakeRel_update_pending db.sessions s.id now
          · simp only [hst, if_false]
            exact wakeRel_refl _
      · simp only [hs, if_false]
        exact wakeRel_refl _

theorem foldl_wakeStep_rel (now : Int) (l : List Session) (db0 : DB) :
    WakeRel db0.sessions (l.foldl (wakeStep now) db0).sessions := by
  induction l generalizing db0 with
  | nil => exact wakeRel_refl _
  | cons a r ih =>
    exact wakeRel_trans (wakeStep_rel now db0 a) (ih (wakeStep now db0 a))

theorem wakeScan_rel (db : DB) (now : Int) :
    WakeRel db.sessions (wakeScan db now).sessions :=
  foldl_wakeStep_rel now (db.get_sessions_by_status .sleeping) db

theorem wakeRel_ids {l l' : List Session} (h : WakeRel l l') :
    l'.map (fun s => s.id) = l.map (fun s => s.id) := by
  induction h with
  | nil => rfl
  | cons hab _ ih => simp [hab.1, ih]

theorem wakeRel_active {l l' : List Session} (h : WakeRel l l') (id : String) :
    activeById l' id = true → activeById l id = true := by
  induction h with
  | nil => simp [activeById, List.find?]
  | @cons a b as bs hab _ ih =>
    intro hact
    unfold activeById at hact ⊢
    by_cases hid : a.id = id
    · have hidb : b.id = id := hab.1.trans hid
      rw [List.find?_cons_of_pos _ (by simp [hidb])] at hact
      rw [List.find?_cons_of_pos _ (by simp [hid])]
      simp only [decide_eq_true_eq] at hact ⊢
      rcases hab.2 with hsame | hpend
      · rw [← hsame]
        exact hact
      · rw [hpend] at hact
        exact absurd hact (by decide)
    · have hidb : ¬ (b.id = id) := fun hb => hid (hab.1 ▸ hb)
      rw [List.find?_cons_of_neg _ (by simp [hidb])] at hact
      rw [List.find?_cons_of_neg _ (by simp [hid])]
      exact ih hact

theorem activeById_of_mem {l : List Session} {s : Session}
    (hn : (l.map (fun t => t.id)).Nodup) (hs : s ∈ l)
    (hact : s.status = .active) :
    activeById l s.id = true := by
  simp [activeById, find_id_of_mem_nodup hn hs, hact]

theorem length_filter_le_one_of_const {l : List Session} {p : Session → Bool}
    {c : String} (hn : (l.map (fun t => t.id)).Nodup)
    (h : ∀ x ∈ l, p x = true → x.id = c) :
    (l.filter p).length ≤ 1 := by
  induction l with
  | nil => simp
  | cons a r ih =>
    have hn' : (∀ x ∈ r, ¬ x.id = a.id) ∧ (r.map (fun t => t.id)).Nodup := by
      simpa using hn
    by_cases hp : p a = true
    · have ha := h a (List.mem_cons_self a r) hp
      have hrest : r.filter p = [] := by
        rw [List.filter_eq_nil_iff]
        intro x hx hpx
        exact hn'.1 x hx (by rw [h x (List.mem_cons_of_mem a hx) hpx, ha])
      simp [List.filter_cons_of_pos hp, hrest]
    · rw [List.filter_cons_of_neg (by simpa using hp)]
      exact ih hn'.2 (fun x hx hpx => h x (List.mem_cons_of_mem a hx) hpx)

theorem update_session_status_ids (db : DB) (id : String) (st : SessionStatus)
    (now : Int) :
    (db.update_session_status id st now).sessions.map (fun s => s.id) =
      db.sessions.map (fun s => s.id) := by
  simp only [DB.update_session_status, List.map_map]
  exact List.map_congr_left (fun a _ => by
    by_cases h : a.id = id <;> simp [h, Function.comp])

theorem activateLoop_cons_pending (now : Int) (db : DB) (s : Session)
    (rest : List Session)
    (hn : (db.sessions.map (fun t => t.id)).Nodup)
    (hs : s ∈ db.sessions) (hp : s.status = .pending) :
    activateLoop now db (s :: rest) =
      (.spawn s.id s.ken s.task s.checkpoint,
       (db.update_session_status s.id .active now).insert_event
         { ts := now, session_id := some s.id,
           event_type := "session_activated", data := none }) := by
  unfold activateLoop DB.try_update_session_status
  simp [find_id_of_mem_nodup hn hs, hp]

/-- Claim C5: one tick invocation transitions at most one session into
`active`; it activates the first session of the post-wake-scan pending list
(the conditional status update on it succeeds, since the tick is the sole
mutator of the embedded store), logs `session_activated`, and reports the
spawn action carrying that session's id, ken, task and checkpoint; when the
pending list is empty it reports the `none` action. The hypothesis is the
primary-key invariant: session ids are unique. -/
theorem tick_activates_at_most_one (db : DB) (now : Int)
    (hn : (db.sessions.map (fun s => s.id)).Nodup) :
    newlyActiveCount db (run_with_storage db now).2 ≤ 1 ∧
    ((run_with_storage db now).1 = .idle ↔
      (wakeScan db now).get_sessions_by_status .pending = []) ∧
    (∀ s rest, (wakeScan db now).get_sessions_by_status .pending = s :: rest →
      (run_with_storage db now).1 = .spawn s.id s.ken s.task s.checkpoint ∧
      ({ ts := now, session_id := some s.id, event_type := "session_activated",
         data := none } : Event) ∈ (run_with_storage db now).2.events) := by
  have hrel := wakeScan_rel db now
  have hids : (wakeScan db now).sessions.map (fun s => s.id) =
      db.sessions.map (fun s => s.id) := wakeRel_ids hrel
  have hn1 : ((wakeScan db now).sessions.map (fun s => s.id)).Nodup := by
    rw [hids]; exact hn
  have hrun : run_with_storage db now =
      activateLoop now (wakeScan db now)
        ((wakeScan db now).get_sessions_by_status .pending) := rfl
  rcases hl : (wakeScan db now).get_sessions_by_status .pending with _ | ⟨s, rest⟩
  · have hres : run_with_storage db now = (.idle, wakeScan db now) := by
      rw [hrun, hl]; rfl
    refine ⟨?_, by simp [hres, hl], fun s rest hctr => nomatch hctr⟩
    rw [hres]
    have hnil : (wakeScan db now).sessions.filter
        (fun t => decide (t.status = SessionStatus.active) &&
          ! activeById db.sessions t.id) = [] := by
      rw [List.filter_eq_nil_iff]
      intro x hx hpx
      rw [Bool.and_eq_true, decide_eq_true_eq, Bool.not_eq_true'] at hpx
      exact absurd (wakeRel_active hrel x.id (activeById_of_mem hn1 hx hpx.1))
        (by simp [hpx.2])
    simp [newlyActiveCount, hnil]
  · have hsm : s ∈ (wakeScan db now).sessions ∧ s.status = .pending := by
      have hmem : s ∈ (wakeScan db now).get_sessions_by_status .pending := by
        rw [hl]; exact List.mem_cons_self s rest
      simpa [DB.get_sessions_by_status, List.mem_filter] using hmem
    have hstep := activateLoop_cons_pending now (wakeScan db now) s rest hn1 hsm.1 hsm.2
    have hres : run_with_storage db now =
        (.spawn s.id s.ken s.task s.checkpoint,
         ((wakeScan db now).update_session_status s.id .active now).insert_event
           { ts := now, session_id := some s.id,
             event_type := "session_activated", data := none }) := by
      rw [hrun, hl, hstep]
    refine ⟨?_, by simp [hres, hl], fun s' rest' h' => ?_⟩
    · rw [hres]
      have hn2 : ((((wakeScan db now).update_session_status s.id .active
          now).insert_event
          { ts := now, session_id := some s.id,
            event_type := "session_activated", data := none }).sessions.map
          (fun t => t.id)).Nodup := by
        simpa [DB.insert_event, update_session_status_ids] using hn1
      refine length_filter_le_one_of_const (c := s.id) hn2 ?_
      intro x hx hpx
      rw [Bool.and_eq_true, decide_eq_true_eq, Bool.not_eq_true'] at hpx
      simp only [DB.insert_event, DB.update_session_status, List.mem_map] at hx
      rcases hx with ⟨t, htm, hxt⟩
      by_cases hti : t.id = s.id
      · rw [← hxt]
        by_cases h2 : t.id = s.id <;> simp [h2, hti]
      · rw [if_neg hti] at hxt
        subst hxt
        exact absurd (wakeRel_active hrel t.id (activeById_of_mem hn1 htm hpx.1))
          (by simp [hpx.2])
    · obtain ⟨he1, he2⟩ := List.cons.inj h'
      subst he1
      refine ⟨by rw [hres], ?_⟩
      rw [hres]
      simp [DB.insert_event, DB.update_session_status]

/-- Witness for C5 at a concrete store: the tick on the store holding the
single pending session "W" (ids trivially unique) activates exactly it. -/
theorem tick_activates_at_most_one_witness :
    (dbPend.sessions.map (fun s => s.id)).Nodup ∧
    newlyActiveCount dbPend (run_with_storage dbPend 3).2 ≤ 1 :=
  ⟨by decide, (tick_activates_at_most_one dbPend 3 (by decide)).1⟩

theorem insertAll_ok {children : List Session} (db : DB)
    (hdisj : ∀ c ∈ children, ∀ t ∈ db.sessions, t.id ≠ c.id)
    (hnd : (children.map (fun c => c.id)).Nodup) :
    insertAll db children = .ok { db with sessions := db.sessions ++ children } := by
  induction children generalizing db with
  | nil => simp [insertAll]
  | cons c rest ih =>
    have hany : db.sessions.any (fun t => t.id = c.id) = false := by
      simp only [List.any_eq_false]
      intro t ht
      simpa using hdisj c (List.mem_cons_self c rest) t ht
    have hnd' : (∀ x ∈ rest, ¬ x.id = c.id) ∧ (rest.map (fun x => x.id)).Nodup := by
      simpa using hnd
    have hdisj' : ∀ c' ∈ rest, ∀ t ∈ db.sessions ++ [c], t.id ≠ c'.id := by
      intro c' hc' t ht
      rcases List.mem_append.mp ht with htl | htc
      · exact hdisj c' (List.mem_cons_of_mem c hc') t htl
      · have : t = c := by simpa using htc
        subst this
        exact fun he => hnd'.1 c' hc' he.symm
    unfold insertAll DB.insert_session
    rw [hany, if_neg Bool.false_ne_true]
    show insertAll { db with sessions := db.sessions ++ [c] } rest =
      .ok { db with sessions := db.sessions ++ c :: rest }
    rw [ih { db with sessions := db.sessions ++ [c] } hdisj' hnd'.2]
    simp

theorem spawn_and_sleep_rollback (db : DB) (pid : String) (cs : List Session)
    (tr cp : String) (now : Int) (e : KenError) (dbe : DB)
    (h : db.spawn_and_sleep pid cs tr cp now = (.error e, dbe)) : dbe = db := by
  unfold DB.spawn_and_sleep at h
  cases hins : insertAll db cs with
  | ok db1 =>
    rw [hins] at h
    simp at h
  | error e2 =>
    rw [hins] at h
    simp only [Prod.mk.injEq] at h
    exact h.2.symm

theorem mkChild_ids (sid : String) (now : Int) (specs : List ChildSpec)
    (freshIds : List String) (h : specs.length = freshIds.length) :
    ((specs.zip freshIds).map (mkChild sid now)).map (fun c => c.id) = freshIds := by
  rw [List.map_map]
  have hcomp : ((fun c => c.id) ∘ mkChild sid now) =
      (Prod.snd : ChildSpec × String → String) := rfl
  rw [hcomp]
  exact List.map_snd_zip specs freshIds (le_of_eq h.symm)

theorem get_session_ok_elim {db : DB} {sid : String} {s : Session}
    (h : db.get_session sid = .ok s) :
    db.sessions.find? (fun t => t.id = sid) = some s := by
  unfold DB.get_session at h
  cases hf : db.sessions.find? (fun t => t.id = sid) with
  | none => rw [hf] at h; cases h
  | some t =>
    rw [hf] at h
    injection h with ht
    rw [ht]

/-- Claim C4: a successful `spawn_and_sleep` on an active parent inserts
every child as a pending session whose `parent_id` is the parent's id,
transitions the parent to `sleeping` storing the resolved trigger and the
checkpoint, appends exactly one `children_spawned` event carrying the list
of minted child ids, and returns that list; and the composite is all or
none — whenever the store-level `spawn_and_sleep` fails, the transaction is
rolled back and the returned store is the original one. Hypotheses: the
parent exists and is active, one fresh id per child spec, and the fresh ids
are pairwise distinct and absent from the store (guaranteed by UUID
generation and the primary-key constraint). -/
theorem spawn_and_sleep_all_or_none (db : DB) (sid : String) (s : Session)
    (specs : List ChildSpec) (freshIds : List String) (tj cp : String) (now : Int)
    (h1 : db.get_session sid = .ok s)
    (h2 : s.status = .active)
    (h3 : specs.length = freshIds.length)
    (h4 : (db.sessions.map (fun t => t.id) ++ freshIds).Nodup) :
    (∃ db1,
      handle_request_with_storage db (.spawn_and_sleep sid specs tj cp) freshIds now =
        .ok (.success (some freshIds), db1) ∧
      (∀ p ∈ specs.zip freshIds, db1.get_session p.2 = .ok (mkChild sid now p)) ∧
      db1.get_session sid = .ok { s with
                                  status := .sleeping,
                                  trigger := some (resolve_trigger tj freshIds),
                                  checkpoint := some cp, updated_at := now } ∧
      db1.events = db.events ++ [{ ts := now, session_id := some sid,
                                   event_type := "children_spawned",
                                   data := some (encodeStringList freshIds) }]) ∧
    (∀ (db0 : DB) (pid : String) (cs : List Session) (tr cp0 : String) (t : Int)
        (e : KenError) (dbe : DB),
      db0.spawn_and_sleep pid cs tr cp0 t = (.error e, dbe) → dbe = db0) := by
  refine ⟨?_, spawn_and_sleep_rollback⟩
  have hfind : db.sessions.find? (fun t => t.id = sid) = some s := get_session_ok_elim h1
  have hsmem : s ∈ db.sessions := List.mem_of_find?_eq_some hfind
  have hsid : s.id = sid := by simpa using List.find?_some hfind
  have h4' : (db.sessions.map (fun t => t.id)).Nodup ∧ freshIds.Nodup ∧
      ∀ a ∈ db.sessions.map (fun t => t.id), a ∉ freshIds := by
    rw [List.nodup_append] at h4
    exact ⟨h4.1, h4.2.1, h4.2.2⟩
  have hcids : ((specs.zip freshIds).map (mkChild sid now)).map (fun c => c.id) =
      freshIds := mkChild_ids sid now specs freshIds h3
  have hsidfresh : sid ∉ freshIds :=
    h4'.2.2 sid (hsid ▸ List.mem_map_of_mem (fun t => t.id) hsmem)
  have hdisj : ∀ c ∈ (specs.zip freshIds).map (mkChild sid now),
      ∀ t ∈ db.sessions, t.id ≠ c.id := by
    intro c hc t ht he
    have hcf : c.id ∈ freshIds := hcids ▸ List.mem_map_of_mem (fun c => c.id) hc
    exact h4'.2.2 t.id (List.mem_map_of_mem (fun t => t.id) ht) (he ▸ hcf)
  have hndch : (((specs.zip freshIds).map (mkChild sid now)).map
      (fun c => c.id)).Nodup := by
    rw [hcids]
    exact h4'.2.1
  have hins := insertAll_ok db hdisj hndch
  have hnact : ¬ (s.status ≠ SessionStatus.active) := by simp [h2]
  have hsp : db.spawn_and_sleep sid ((specs.zip freshIds).map (mkChild sid now))
      (resolve_trigger tj freshIds) cp now =
      (.ok freshIds,
       (({ db with sessions :=
            db.sessions ++ (specs.zip freshIds).map (mkChild sid now) } : DB).sleep_session
          sid (resolve_trigger tj freshIds) cp now).insert_event
        { ts := now, session_id := some sid, event_type := "children_spawned",
          data := some (encodeStringList freshIds) }) := by
    unfold DB.spawn_and_sleep
    rw [hins]
    dsimp only
    rw [hcids]
  refine ⟨(({ db with sessions :=
        db.sessions ++ (specs.zip freshIds).map (mkChild sid now) } : DB).sleep_session
      sid (resolve_trigger tj freshIds) cp now).insert_event
      { ts := now, session_id := some sid, event_type := "children_spawned",
        data := some (encodeStringList freshIds) }, ?_, ?_, ?_, ?_⟩
  · simp only [handle_request_with_storage, h1, h2, ne_eq, not_true_eq_false,
      Bool.false_eq_true, if_false, hcids, hsp]
  · intro p hp
    have hpf : p.2 ∈ freshIds := (List.of_mem_zip hp).2
    unfold DB.get_session
    simp only [DB.insert_event, DB.sleep_session, List.map_append, List.find?_append]
    have hleft : (db.sessions.map (fun t =>
        if t.id = sid then
          { t with status := .sleeping,
                   trigger := some (resolve_trigger tj freshIds),
                   checkpoint := some cp, updated_at := now }
        else t)).find? (fun t => t.id = p.2) = none := by
      rw [List.find?_eq_none]
      intro x hx
      rcases List.mem_map.mp hx with ⟨t, ht, hxt⟩
      have hxid : x.id = t.id := by
        rw [← hxt]
        by_cases hc : t.id = sid <;> simp [hc]
      simp only [decide_eq_true_eq, hxid]
      intro he
      exact h4'.2.2 t.id (List.mem_map_of_mem (fun t => t.id) ht) (he ▸ hpf)
    have hchfix : ((specs.zip freshIds).map (mkChild sid now)).map (fun t =>
        if t.id = sid then
          { t with status := .sleeping,
                   trigger := some (resolve_trigger tj freshIds),
                   checkpoint := some cp, updated_at := now }
        else t) = (specs.zip freshIds).map (mkChild sid now) := by
      apply map_fix_eq_self
      intro c hc
      have hcf : c.id ∈ freshIds := hcids ▸ List.mem_map_of_mem (fun c => c.id) hc
      have : ¬ (c.id = sid) := fun he => hsidfresh (he ▸ hcf)
      simp [this]
    rw [hchfix, hleft]
    have hrt : ((specs.zip freshIds).map (mkChild sid now)).find?
        (fun t => t.id = p.2) = some (mkChild sid now p) :=
      find_id_of_mem_nodup hndch (List.mem_map_of_mem (mkChild sid now) hp)
    rw [hrt]
    rfl
  · unfold DB.get_session
    simp only [DB.insert_event, DB.sleep_session, List.map_append, List.find?_append]
    have hmapped : (db.sessions.map (fun t =>
        if t.id = sid then
          { t with status := .sleeping,
                   trigger := some (resolve_trigger tj freshIds),
                   checkpoint := some cp, updated_at := now }
        else t)).find? (fun t => t.id = sid) =
        some { s with status := .sleeping,
                      trigger := some (resolve_trigger tj freshIds),
                      checkpoint := some cp, updated_at := now } := by
      rw [List.find?_map]
      have hpred : ((fun t => decide (t.id = sid)) ∘ (fun (t : Session) =>
          if t.id = sid then
            { t with status := .sleeping,
                     trigger := some (resolve_trigger tj freshIds),
                     checkpoint := some cp, updated_at := now }
          else t)) = (fun t => decide (t.id = sid)) := by
        funext t
        by_cases hc : t.id = sid <;> simp [Function.comp, hc]
      rw [hpred, hfind]
      simp [hsid]
    rw [hmapped]
    rfl
  · rfl

/-- Witness for C4 at a concrete store: the active parent "p" spawns two
children with fresh ids "c1", "c2" and trigger template
`\x7b"all_complete":"__CHILDREN__"\x7d`. -/
theorem spawn_and_sleep_all_or_none_witness :
    dbParent.get_session "p" = .ok sParent ∧
    sParent.status = .active ∧
    (∃ db1,
      handle_request_with_storage dbParent
          (.spawn_and_sleep "p" [⟨"a", "A"⟩, ⟨"b", "B"⟩] childrenTrigStr "cp")
          ["c1", "c2"] 7 =
        .ok (.success (some ["c1", "c2"]), db1) ∧
      (∀ p ∈ ([⟨"a", "A"⟩, ⟨"b", "B"⟩] : List ChildSpec).zip ["c1", "c2"],
        db1.get_session p.2 = .ok (mkChild "p" 7 p)) ∧
      db1.get_session "p" = .ok { sParent with
                                  status := .sleeping,
                                  trigger := some (resolve_trigger childrenTrigStr
                                    ["c1", "c2"]),
                                  checkpoint := some "cp", updated_at := 7 } ∧
      db1.events = dbParent.events ++ [{ ts := 7, session_id := some "p",
                                         event_type := "children_spawned",
                                         data := some (encodeStringList
                                           ["c1", "c2"]) }]) :=
  ⟨rfl, rfl,
    (spawn_and_sleep_all_or_none dbParent "p" sParent [⟨"a", "A"⟩, ⟨"b", "B"⟩]
      ["c1", "c2"] childrenTrigStr "cp" 7 rfl rfl rfl (by decide)).1⟩

end Ken
